import Mathlib

/-!
Verification of the CryptoLoyality chaincode (src/chaincodes/crypto-loyality/index.ts).

The ledger is modelled as an association list from String keys to stored entity
records; `putState` prepends (last write shadows earlier ones, matching
read-your-own-writes), `getState` returns the first binding.  JavaScript
numbers are modelled as rationals, `Math.round` as `jsRound q = ⌊q + 1/2⌋`
(round half toward positive infinity), and thrown errors as `Except`.
The substrate's `createCompositeKey` follows the Hyperledger Fabric format:
a reserved U+0000 namespace prefix, the object type, then each attribute
preceded by a U+0000 separator.
-/

namespace CryptoLoyality

/-- JavaScript Math.round: round half toward positive infinity. -/
def jsRound (x : ℚ) : ℤ := ⌊x + 1/2⌋

/-- Entity record: Shop (index.ts, type Shop). -/
structure Shop where
  id : String
  priceToPointsMultiplier : ℚ
  minPriceToGetPoints : ℚ
  maxGivenPoints : ℚ
  freePointsPercentage : ℚ
deriving DecidableEq, Repr

/-- Entity record: Customer. -/
structure Customer where
  id : String
  points : ℚ
deriving DecidableEq, Repr

/-- Entity record: CouponType. -/
structure CouponType where
  shopId : String
  kind : String
  val : String
  active : Bool
deriving DecidableEq, Repr

/-- Entity record: Coupon.  The validUntil Date crosses the JSON
serialization boundary as its ISO string form, so it is modelled as a
String. -/
structure Coupon where
  id : String
  typeId : String
  owner : String
  validUntil : String
  seriesId : String
deriving DecidableEq, Repr

/-- Entity record: ShopSpecificToken (SST). -/
structure ShopSpecificToken where
  shopId : String
  customerId : String
  amount : ℚ
deriving DecidableEq, Repr

/-- User roles (enum UserRole). -/
inductive UserRole where
  | admin
  | shop
  | customer
deriving DecidableEq, Repr

/-- Entity record: User. -/
structure User where
  id : String
  role : UserRole
deriving DecidableEq, Repr

/-- userRoleFromString from index.ts: parse-or-null conversion. -/
def userRoleFromString (t : String) : Option UserRole :=
  if t = "admin" then some .admin
  else if t = "shop" then some .shop
  else if t = "customer" then some .customer
  else none

/-- A value stored on the ledger (the decoded form of the written bytes). -/
inductive StoredVal where
  | shop : Shop → StoredVal
  | customer : Customer → StoredVal
  | couponType : CouponType → StoredVal
  | coupon : Coupon → StoredVal
  | sst : ShopSpecificToken → StoredVal
  | user : User → StoredVal
deriving DecidableEq, Repr

/-- The ledger: an association list, first binding wins. -/
abbrev Ledger := List (String × StoredVal)

/-- The reserved minimum unicode rune used by Fabric composite keys. -/
def NUL : Char := Char.ofNat 0

/-- Modelled from the spec: the substrate's deriveCompositeKey of section 6,
realised by the Hyperledger Fabric composite-key format (a U+0000 namespace
prefix, the object type, then each attribute preceded by a U+0000
separator), which provides the injectivity contract of section 4.1 for
separator-free parts. -/
def createCompositeKey (objectType : String) (attributes : List String) : String :=
  ⟨NUL :: objectType.data ++ (attributes.map (fun a => NUL :: a.data)).flatten⟩

def SHOP : String := "SHOP"
def CUSTOMER : String := "CUSTOMER"
def COUPONTYPE : String := "COUPONTYPE"
def COUPON : String := "COUPON"
def SHOP_SPECIFIC_TOKEN : String := "SHOP_SPECIFIC_TOKEN"
def USER : String := "USER"

/-- CLKeyGen.shop. -/
def shopKeyOf (id : String) : String := createCompositeKey SHOP [id]

/-- CLKeyGen.customer. -/
def customerKeyOf (id : String) : String := createCompositeKey CUSTOMER [id]

/-- CLKeyGen.couponType. -/
def couponTypeKeyOf (shopId kind val : String) : String :=
  createCompositeKey COUPONTYPE [shopId, kind, val]

/-- Coupon key as built in createCoupon. -/
def couponKeyOf (id typeId : String) : String := createCompositeKey COUPON [id, typeId]

/-- CLKeyGen.sst. -/
def sstKeyOf (shopId customerId : String) : String :=
  createCompositeKey SHOP_SPECIFIC_TOKEN [shopId, customerId]

/-- CLKeyGen.user. -/
def userKeyOf (clientId : String) : String := createCompositeKey USER [clientId]

/-- ctx.stub.getState: first binding at the key, none if absent. -/
def getState : Ledger → String → Option StoredVal
  | [], _ => none
  | (k', v) :: rest, k => if k' = k then some v else getState rest k

/-- ctx.stub.putState: unconditional overwrite (shadowing prepend). -/
def putState (st : Ledger) (k : String) (v : StoredVal) : Ledger := (k, v) :: st

/-- entityExists from index.ts: a non-empty value is stored at the key. -/
def entityExists (st : Ledger) (k : String) : Bool := (getState st k).isSome

/-- shopExists from index.ts. -/
def shopExists (st : Ledger) (id : String) : Bool := entityExists st (shopKeyOf id)

/-- customerExists from index.ts. -/
def customerExists (st : Ledger) (id : String) : Bool :=
  entityExists st (customerKeyOf id)

/-- shopSpecificTokenExists from index.ts. -/
def shopSpecificTokenExists (st : Ledger) (shopId customerId : String) : Bool :=
  entityExists st (sstKeyOf shopId customerId)

/-- Error taxonomy of section 7, tagged with the throwing method.  The
source throws Error objects with message strings; each throw site is
classified by its message.  typeMismatch marks the reads where the source
would JSON.parse a value of an unexpected shape (unreachable in states
whose keys hold records of the matching entity type). -/
inductive ErrKind where
  | alreadyExists
  | notFound
  | invalidArgument
  | inactiveType
  | typeMismatch
deriving DecidableEq, Repr

/-- A thrown error: the throwing method and its classified kind. -/
structure CLError where
  method : String
  kind : ErrKind
deriving DecidableEq, Repr

/-- Outcome variants of registerPurchase: normal success versus the
distinct no-points success. -/
inductive Outcome where
  | okPoints
  | noPoints
deriving DecidableEq, Repr

/-- CryptoLoyality.register: guards re-registration, parses the role,
writes the User record. -/
def register (st : Ledger) (clientId : String) (id : String) (uRole : String) :
    Except CLError (Ledger × String) :=
  let userKey := userKeyOf clientId
  if entityExists st userKey then .error ⟨"register", .alreadyExists⟩
  else
    match userRoleFromString uRole with
    | none => .error ⟨"register", .invalidArgument⟩
    | some role => .ok (putState st userKey (.user ⟨id, role⟩), userKey)

/-- CryptoLoyality.createShopSpecificToken: checks non-existence of the
token and existence of shop and customer, then writes amount 0. -/
def createShopSpecificToken (st : Ledger) (shopId customerId : String) :
    Except CLError (Ledger × String) :=
  let sstKey := sstKeyOf shopId customerId
  if entityExists st sstKey then .error ⟨"createShopSpecificToken", .alreadyExists⟩
  else if ¬ shopExists st shopId then .error ⟨"createShopSpecificToken", .notFound⟩
  else if ¬ customerExists st customerId then
    .error ⟨"createShopSpecificToken", .notFound⟩
  else .ok (putState st sstKey (.sst ⟨shopId, customerId, 0⟩), sstKey)

/-- CryptoLoyality.increaseShopSpecificToken: requires the token to exist,
then read-modify-writes its amount. -/
def increaseShopSpecificToken (st : Ledger) (shopId customerId : String)
    (addAmount : ℚ) : Except CLError Ledger :=
  let key := sstKeyOf shopId customerId
  if ¬ entityExists st key then .error ⟨"increaseShopSpecificToken", .notFound⟩
  else
    match getState st key with
    | some (.sst t) =>
        .ok (putState st key (.sst { t with amount := t.amount + addAmount }))
    | _ => .error ⟨"increaseShopSpecificToken", .typeMismatch⟩

/-- CryptoLoyality.createShop: uniqueness check, then writes the Shop with
freePointsPercentage fixed at 1.0. -/
def createShop (st : Ledger) (id : String) (multiplier minPrice maxPoints : ℚ) :
    Except CLError (Ledger × String) :=
  if shopExists st id then .error ⟨"createShop", .alreadyExists⟩
  else
    let key := shopKeyOf id
    .ok (putState st key (.shop ⟨id, multiplier, minPrice, maxPoints, 1⟩), key)

/-- CryptoLoyality.createCouponType: writes unconditionally (no existence
check in the source), active set to true. -/
def createCouponType (st : Ledger) (shopId kind val : String) :
    Except CLError Ledger :=
  let key := couponTypeKeyOf shopId kind val
  .ok (putState st key (.couponType ⟨shopId, kind, val, true⟩))

/-- Coupon id generated per batch, idBase underscore index. -/
def couponId (idBase : String) (i : ℕ) : String := idBase ++ "_" ++ toString i

/-- The active flag the source reads off the JSON.parsed value: a missing
field on a non-CouponType value is falsy. -/
def storedActiveFlag : StoredVal → Bool
  | .couponType ct => ct.active
  | _ => false

/-- CryptoLoyality.createCoupon: n at least 1, the type looked up by
getState on the raw typeId argument, active flag check, then a loop
writing n coupons. -/
def createCoupon (st : Ledger) (idBase typeId owner validUntil seriesId : String)
    (n : ℤ) : Except CLError Ledger :=
  if n < 1 then .error ⟨"createCoupon", .invalidArgument⟩
  else
    match getState st typeId with
    | none => .error ⟨"createCoupon", .notFound⟩
    | some v =>
        if storedActiveFlag v = false then .error ⟨"createCoupon", .inactiveType⟩
        else
          .ok ((List.range n.toNat).foldl
            (fun acc i => putState acc (couponKeyOf (couponId idBase i) typeId)
              (.coupon ⟨couponId idBase i, typeId, owner, validUntil, seriesId⟩)) st)

/-- CryptoLoyality.createCustomer: uniqueness check, then writes the
Customer with points 0. -/
def createCustomer (st : Ledger) (id : String) : Except CLError (Ledger × String) :=
  if customerExists st id then .error ⟨"createCustomer", .alreadyExists⟩
  else
    let key := customerKeyOf id
    .ok (putState st key (.customer ⟨id, 0⟩), key)

/-- CryptoLoyality.updateCustomer: requires existence, then overwrites the
whole record with the argument. -/
def updateCustomer (st : Ledger) (c : Customer) : Except CLError Ledger :=
  if ¬ customerExists st c.id then .error ⟨"updateCustomer", .notFound⟩
  else .ok (putState st (customerKeyOf c.id) (.customer c))

/-- CryptoLoyality.registerPurchase (current revision): existence checks,
reads, threshold branch, cap, round-half-up split, then customer write,
SST creation if absent, and SST increase.  The unawaited calls of the
source are modelled sequentially per the logical single-threaded
transaction model of section 5. -/
def registerPurchase (st : Ledger) (shopId customerId : String) (paidAmount : ℚ) :
    Except CLError (Ledger × Outcome) :=
  if ¬ customerExists st customerId then .error ⟨"registerPurchase", .notFound⟩
  else if ¬ shopExists st shopId then .error ⟨"registerPurchase", .notFound⟩
  else
    match getState st (shopKeyOf shopId), getState st (customerKeyOf customerId) with
    | some (.shop theShop), some (.customer theCustomer) =>
        let sumPoints := paidAmount * theShop.priceToPointsMultiplier
        if paidAmount < theShop.minPriceToGetPoints then
          .ok (st, .noPoints)
        else
          let capped := if sumPoints > theShop.maxGivenPoints
                        then theShop.maxGivenPoints else sumPoints
          let freePointsToBeGiven : ℤ := jsRound (capped * theShop.freePointsPercentage)
          let shopSpecificPointsToBeGiven : ℚ := capped - (freePointsToBeGiven : ℚ)
          match updateCustomer st
              { theCustomer with points := theCustomer.points + (freePointsToBeGiven : ℚ) } with
          | .error e => .error e
          | .ok st1 =>
            match
              (if shopSpecificTokenExists st1 shopId customerId then .ok st1
               else
                 match createShopSpecificToken st1 shopId customerId with
                 | .error e => .error e
                 | .ok (st2, _) => .ok st2 : Except CLError Ledger) with
            | .error e => .error e
            | .ok st2 =>
              match increaseShopSpecificToken st2 shopId customerId
                  shopSpecificPointsToBeGiven with
              | .error e => .error e
              | .ok st3 => .ok (st3, .okPoints)
    | _, _ => .error ⟨"registerPurchase", .typeMismatch⟩

/-! Serialization (CLSerialize, built on json-stringify-deterministic).
The library renders a JSON object with its keys in sorted order, so the
written bytes are determined by the key-sorted field list; encoding is
modelled as that canonical sorted association list of JSON leaf values. -/

/-- A JSON leaf value as stored in the entity records. -/
inductive JsonVal where
  | str : String → JsonVal
  | num : ℚ → JsonVal
  | boolVal : Bool → JsonVal
deriving DecidableEq, Repr

/-- A JSON object prior to key ordering: the fields in in-memory order. -/
abbrev JObj := List (String × JsonVal)

/-- Lexicographic code-unit comparison, the order JavaScript Array.sort
applies to the keys. -/
def strLeB : List Char → List Char → Bool
  | [], _ => true
  | _ :: _, [] => false
  | a :: as, b :: bs =>
      if a.toNat < b.toNat then true
      else if b.toNat < a.toNat then false
      else strLeB as bs

/-- Field order used by json-stringify-deterministic: by key. -/
@[reducible] def fieldLe (a b : String × JsonVal) : Prop :=
  strLeB a.1.data b.1.data = true

/-- json-stringify-deterministic: the fields in sorted key order, which
fixes the rendered bytes. -/
def stringifyFields (o : JObj) : JObj :=
  List.insertionSort fieldLe o

/-- Encoding of a Shop (CLSerialize.shop). -/
def encodeShop (s : Shop) : JObj :=
  stringifyFields
    [("id", .str s.id),
     ("priceToPointsMultiplier", .num s.priceToPointsMultiplier),
     ("minPriceToGetPoints", .num s.minPriceToGetPoints),
     ("maxGivenPoints", .num s.maxGivenPoints),
     ("freePointsPercentage", .num s.freePointsPercentage)]

/-- Modelled from the spec: the decode side of section 4.2 for Shop; the
source decodes via JSON.parse at the use sites and reads these fields. -/
def decodeShop (o : JObj) : Option Shop :=
  match o.lookup "id", o.lookup "priceToPointsMultiplier",
      o.lookup "minPriceToGetPoints", o.lookup "maxGivenPoints",
      o.lookup "freePointsPercentage" with
  | some (.str id), some (.num m), some (.num mn), some (.num mx), some (.num f) =>
      some ⟨id, m, mn, mx, f⟩
  | _, _, _, _, _ => none

/-- Encoding of a Customer (CLSerialize.customer). -/
def encodeCustomer (c : Customer) : JObj :=
  stringifyFields [("id", .str c.id), ("points", .num c.points)]

/-- Modelled from the spec: the decode side of section 4.2 for Customer. -/
def decodeCustomer (o : JObj) : Option Customer :=
  match o.lookup "id", o.lookup "points" with
  | some (.str id), some (.num p) => some ⟨id, p⟩
  | _, _ => none

/-- Encoding of a CouponType (CLSerialize.couponType). -/
def encodeCouponType (ct : CouponType) : JObj :=
  stringifyFields
    [("shopId", .str ct.shopId), ("kind", .str ct.kind),
     ("val", .str ct.val), ("active", .boolVal ct.active)]

/-- Modelled from the spec: the decode side of section 4.2 for CouponType. -/
def decodeCouponType (o : JObj) : Option CouponType :=
  match o.lookup "shopId", o.lookup "kind", o.lookup "val", o.lookup "active" with
  | some (.str s), some (.str k), some (.str v), some (.boolVal a) => some ⟨s, k, v, a⟩
  | _, _, _, _ => none

/-- Encoding of a Coupon (CLSerialize.coupon); the Date field serializes
as its ISO string. -/
def encodeCoupon (c : Coupon) : JObj :=
  stringifyFields
    [("id", .str c.id), ("typeId", .str c.typeId), ("owner", .str c.owner),
     ("validUntil", .str c.validUntil), ("seriesId", .str c.seriesId)]

/-- Modelled from the spec: the decode side of section 4.2 for Coupon. -/
def decodeCoupon (o : JObj) : Option Coupon :=
  match o.lookup "id", o.lookup "typeId", o.lookup "owner",
      o.lookup "validUntil", o.lookup "seriesId" with
  | some (.str i), some (.str t), some (.str ow), some (.str v), some (.str se) =>
      some ⟨i, t, ow, v, se⟩
  | _, _, _, _, _ => none

/-- Encoding of a ShopSpecificToken (CLSerialize.sst). -/
def encodeSst (t : ShopSpecificToken) : JObj :=
  stringifyFields
    [("shopId", .str t.shopId), ("customerId", .str t.customerId),
     ("amount", .num t.amount)]

/-- Modelled from the spec: the decode side of section 4.2 for SST. -/
def decodeSst (o : JObj) : Option ShopSpecificToken :=
  match o.lookup "shopId", o.lookup "customerId", o.lookup "amount" with
  | some (.str s), some (.str c), some (.num a) => some ⟨s, c, a⟩
  | _, _, _ => none

/-- Role rendered to its JSON string, the enum value of the source. -/
def roleToString : UserRole → String
  | .admin => "admin"
  | .shop => "shop"
  | .customer => "customer"

/-- Encoding of a User (CLSerialize.user). -/
def encodeUser (u : User) : JObj :=
  stringifyFields [("id", .str u.id), ("role", .str (roleToString u.role))]

/-- Modelled from the spec: the decode side of section 4.2 for User. -/
def decodeUser (o : JObj) : Option User :=
  match o.lookup "id", o.lookup "role" with
  | some (.str id), some (.str r) =>
      match userRoleFromString r with
      | some role => some ⟨id, role⟩
      | none => none
  | _, _ => none

/-! Helper observers used to state the claims. -/

/-- The points or amount balance carried by the value stored at a key:
a Customer's points, an SST's amount, none otherwise. -/
def balanceAt (st : Ledger) (k : String) : Option ℚ :=
  match getState st k with
  | some (.customer c) => some c.points
  | some (.sst t) => some t.amount
  | _ => none

/-- A ledger entry is well placed when a Customer or SST value sits at the
composite key derived from its own identifying fields, as every write of
the contract arranges. -/
def entryPlaced : String × StoredVal → Prop
  | (k, .customer c) => k = customerKeyOf c.id
  | (k, .sst t) => k = sstKeyOf t.shopId t.customerId
  | _ => True

/-- All entries of the ledger are well placed. -/
def WellPlaced (st : Ledger) : Prop := ∀ p ∈ st, entryPlaced p

/-- The amount of the SST stored for the pair, 0 when absent. -/
def sstAmount0 (st : Ledger) (shopId customerId : String) : ℚ :=
  match getState st (sstKeyOf shopId customerId) with
  | some (.sst t) => t.amount
  | _ => 0

/-- The slot for the pair either is empty or holds an SST of that pair. -/
def SstSlotOk (st : Ledger) (shopId customerId : String) : Prop :=
  getState st (sstKeyOf shopId customerId) = none ∨
    ∃ a, getState st (sstKeyOf shopId customerId) = some (.sst ⟨shopId, customerId, a⟩)

/-- Whether a key string begins with the reserved composite-key rune. -/
def startsWithNul (s : String) : Bool :=
  match s.data with
  | [] => false
  | c :: _ => c = NUL

/-- The batch of ledger entries written by a successful createCoupon call,
newest first (the i-th iteration of the source loop writes the coupon with
id couponId idBase i). -/
def couponBatch (idBase typeId owner validUntil seriesId : String) (n : ℤ) : Ledger :=
  ((List.range n.toNat).map fun i =>
    (couponKeyOf (couponId idBase i) typeId,
     StoredVal.coupon ⟨couponId idBase i, typeId, owner, validUntil, seriesId⟩)).reverse

/-- Whether an Except value is a success. -/
def exOk {α : Type} (e : Except CLError α) : Bool :=
  match e with
  | .ok _ => true
  | .error _ => false

/-- The capped award sumPoints of registerPurchase after the cap branch. -/
def cappedPoints (S : Shop) (paid : ℚ) : ℚ :=
  if paid * S.priceToPointsMultiplier > S.maxGivenPoints then S.maxGivenPoints
  else paid * S.priceToPointsMultiplier

/-- freePointsToBeGiven of registerPurchase. -/
def freePointsOf (S : Shop) (paid : ℚ) : ℤ :=
  jsRound (cappedPoints S paid * S.freePointsPercentage)

/-- shopSpecificPointsToBeGiven of registerPurchase. -/
def shopSpecificOf (S : Shop) (paid : ℚ) : ℚ :=
  cappedPoints S paid - (freePointsOf S paid : ℚ)

/-! Basic ledger lemmas. -/

theorem getState_putState_self (st : Ledger) (k : String) (v : StoredVal) :
    getState (putState st k v) k = some v := by
  simp [putState, getState]

theorem getState_putState_ne (st : Ledger) (k k' : String) (v : StoredVal)
    (h : k ≠ k') : getState (putState st k v) k' = getState st k' := by
  simp [putState, getState, h]

theorem mem_of_getState_eq_some {st : Ledger} {k : String} {v : StoredVal}
    (h : getState st k = some v) : (k, v) ∈ st := by
  induction st with
  | nil => simp [getState] at h
  | cons p rest ih =>
      obtain ⟨k', v'⟩ := p
      by_cases hk : k' = k
      · subst hk
        simp [getState] at h
        subst h
        exact List.mem_cons_self _ _
      · simp [getState, hk] at h
        exact List.mem_cons_of_mem _ (ih h)

theorem getState_append_of_not_mem (l st : Ledger) (k : String)
    (h : ∀ p ∈ l, p.1 ≠ k) : getState (l ++ st) k = getState st k := by
  induction l with
  | nil => rfl
  | cons p rest ih =>
      obtain ⟨k', v'⟩ := p
      have hne : k' ≠ k := h (k', v') (List.mem_cons_self _ _)
      simp only [List.cons_append, getState, hne, if_false]
      exact ih fun q hq => h q (List.mem_cons_of_mem _ hq)

theorem foldl_put_eq_reverse_map_append {α : Type} (f : α → String × StoredVal) :
    ∀ (l : List α) (st : Ledger),
      l.foldl (fun acc i => putState acc (f i).1 (f i).2) st = (l.map f).reverse ++ st := by
  intro l
  induction l with
  | nil => intro st; rfl
  | cons a t ih =>
      intro st
      rw [List.foldl_cons, ih, List.map_cons, List.reverse_cons, List.append_assoc]
      rfl

/-! Key shape lemmas: every composite key starts with the reserved rune,
keys of distinct entity tags are distinct whatever the parts are, and
same-tag single-part keys are injective. -/

theorem createCompositeKey_startsWithNul (t : String) (ps : List String) :
    startsWithNul (createCompositeKey t ps) = true := by
  simp [startsWithNul, createCompositeKey]

theorem getState_eq_none_of_keys_nul {st : Ledger} {k : String}
    (hkeys : ∀ p ∈ st, startsWithNul p.1 = true) (hk : startsWithNul k = false) :
    getState st k = none := by
  induction st with
  | nil => rfl
  | cons p rest ih =>
      obtain ⟨k', v'⟩ := p
      have h1 : startsWithNul k' = true := hkeys (k', v') (List.mem_cons_self _ _)
      have hne : k' ≠ k := by
        intro h
        rw [h, hk] at h1
        exact Bool.false_ne_true h1
      simp only [getState, hne, if_false]
      exact ih fun q hq => hkeys q (List.mem_cons_of_mem _ hq)

theorem shopKey_ne_customerKey (a b : String) : shopKeyOf a ≠ customerKeyOf b := by
  intro h
  have h2 : (shopKeyOf a).data.get? 1 = (customerKeyOf b).data.get? 1 :=
    congrArg (fun s => s.data.get? 1) h
  simp [shopKeyOf, customerKeyOf, createCompositeKey, SHOP, CUSTOMER] at h2

theorem shopKey_ne_sstKey (a s c : String) : shopKeyOf a ≠ sstKeyOf s c := by
  intro h
  have h2 : (shopKeyOf a).data.get? 5 = (sstKeyOf s c).data.get? 5 :=
    congrArg (fun x => x.data.get? 5) h
  simp [shopKeyOf, sstKeyOf, createCompositeKey, SHOP, SHOP_SPECIFIC_TOKEN, NUL] at h2

theorem customerKey_ne_sstKey (a s c : String) : customerKeyOf a ≠ sstKeyOf s c := by
  intro h
  have h2 : (customerKeyOf a).data.get? 1 = (sstKeyOf s c).data.get? 1 :=
    congrArg (fun x => x.data.get? 1) h
  simp [customerKeyOf, sstKeyOf, createCompositeKey, CUSTOMER, SHOP_SPECIFIC_TOKEN] at h2

theorem couponTypeKey_ne_customerKey (x y z b : String) :
    couponTypeKeyOf x y z ≠ customerKeyOf b := by
  intro h
  have h2 : (couponTypeKeyOf x y z).data.get? 2 = (customerKeyOf b).data.get? 2 :=
    congrArg (fun s => s.data.get? 2) h
  simp [couponTypeKeyOf, customerKeyOf, createCompositeKey, COUPONTYPE, CUSTOMER] at h2

theorem couponTypeKey_ne_sstKey (x y z s c : String) :
    couponTypeKeyOf x y z ≠ sstKeyOf s c := by
  intro h
  have h2 : (couponTypeKeyOf x y z).data.get? 1 = (sstKeyOf s c).data.get? 1 :=
    congrArg (fun q => q.data.get? 1) h
  simp [couponTypeKeyOf, sstKeyOf, createCompositeKey, COUPONTYPE, SHOP_SPECIFIC_TOKEN] at h2

theorem couponKey_ne_customerKey (x y b : String) : couponKeyOf x y ≠ customerKeyOf b := by
  intro h
  have h2 : (couponKeyOf x y).data.get? 2 = (customerKeyOf b).data.get? 2 :=
    congrArg (fun s => s.data.get? 2) h
  simp [couponKeyOf, customerKeyOf, createCompositeKey, COUPON, CUSTOMER] at h2

theorem couponKey_ne_sstKey (x y s c : String) : couponKeyOf x y ≠ sstKeyOf s c := by
  intro h
  have h2 : (couponKeyOf x y).data.get? 1 = (sstKeyOf s c).data.get? 1 :=
    congrArg (fun q => q.data.get? 1) h
  simp [couponKeyOf, sstKeyOf, createCompositeKey, COUPON, SHOP_SPECIFIC_TOKEN] at h2

theorem userKey_ne_customerKey (u b : String) : userKeyOf u ≠ customerKeyOf b := by
  intro h
  have h2 : (userKeyOf u).data.get? 1 = (customerKeyOf b).data.get? 1 :=
    congrArg (fun s => s.data.get? 1) h
  simp [userKeyOf, customerKeyOf, createCompositeKey, USER, CUSTOMER] at h2

theorem userKey_ne_sstKey (u s c : String) : userKeyOf u ≠ sstKeyOf s c := by
  intro h
  have h2 : (userKeyOf u).data.get? 1 = (sstKeyOf s c).data.get? 1 :=
    congrArg (fun q => q.data.get? 1) h
  simp [userKeyOf, sstKeyOf, createCompositeKey, USER, SHOP_SPECIFIC_TOKEN] at h2

/-! Order lemmas for the serialization key sort. -/

theorem strLeB_total : ∀ x y : List Char, strLeB x y = true ∨ strLeB y x = true := by
  intro x
  induction x with
  | nil => intro y; left; rfl
  | cons a as ih =>
      intro y
      cases y with
      | nil => right; rfl
      | cons b bs =>
          by_cases h1 : a.toNat < b.toNat
          · left; simp [strLeB, h1]
          · by_cases h2 : b.toNat < a.toNat
            · right; simp [strLeB, h2]
            · rcases ih bs with h | h
              · left; simp [strLeB, h1, h2, h]
              · right; simp [strLeB, h1, h2, h]

theorem strLeB_trans : ∀ x y z : List Char,
    strLeB x y = true → strLeB y z = true → strLeB x z = true := by
  intro x
  induction x with
  | nil => intro y z _ _; rfl
  | cons a as ih =>
      intro y z h1 h2
      cases y with
      | nil => simp [strLeB] at h1
      | cons b bs =>
          cases z with
          | nil => simp [strLeB] at h2
          | cons c cs =>
              by_cases hab : a.toNat < b.toNat
              · by_cases hbc : b.toNat < c.toNat
                · simp [strLeB, lt_trans hab hbc]
                · by_cases hcb : c.toNat < b.toNat
                  · simp [strLeB, hbc, hcb] at h2
                  · have hv : b.toNat = c.toNat :=
                      le_antisymm (not_lt.mp hcb) (not_lt.mp hbc)
                    simp [strLeB, hv ▸ hab]
              · by_cases hba : b.toNat < a.toNat
                · simp [strLeB, hab, hba] at h1
                · have hv : a.toNat = b.toNat :=
                    le_antisymm (not_lt.mp hba) (not_lt.mp hab)
                  simp only [strLeB, hab, hba, if_false] at h1
                  by_cases hbc : b.toNat < c.toNat
                  · simp [strLeB, hv ▸ hbc]
                  · by_cases hcb : c.toNat < b.toNat
                    · simp [strLeB, hbc, hcb] at h2
                    · simp only [strLeB, hbc, hcb, if_false] at h2
                      have hac1 : ¬ a.toNat < c.toNat := by rw [hv]; exact hbc
                      have hac2 : ¬ c.toNat < a.toNat := by rw [hv]; exact hcb
                      simp only [strLeB, hac1, hac2, if_false]
                      exact ih bs cs h1 h2

theorem strLeB_antisymm : ∀ x y : List Char,
    strLeB x y = true → strLeB y x = true → x = y := by
  intro x
  induction x with
  | nil =>
      intro y h1 h2
      cases y with
      | nil => rfl
      | cons b bs => simp [strLeB] at h2
  | cons a as ih =>
      intro y h1 h2
      cases y with
      | nil => simp [strLeB] at h1
      | cons b bs =>
          by_cases hab : a.toNat < b.toNat
          · simp [strLeB, hab, lt_asymm hab] at h2
          · by_cases hba : b.toNat < a.toNat
            · simp [strLeB, hab, hba] at h1
            · have hv : a.toNat = b.toNat :=
                le_antisymm (not_lt.mp hba) (not_lt.mp hab)
              have hc : a = b :=
                Char.ext (UInt32.eq_of_toBitVec_eq (BitVec.eq_of_toNat_eq hv))
              simp only [strLeB, hab, hba, if_false] at h1
              simp only [strLeB, hab, hba, if_false] at h2
              rw [hc, ih bs h1 h2]

theorem string_eq_of_data {s t : String} (h : s.data = t.data) : s = t :=
  congrArg String.mk h

theorem sorted_perm_nodupkeys_eq :
    ∀ l₁ l₂ : JObj, l₁.Perm l₂ → l₁.Sorted fieldLe → l₂.Sorted fieldLe →
      (l₁.map Prod.fst).Nodup → l₁ = l₂ := by
  intro l₁
  induction l₁ with
  | nil =>
      intro l₂ hp _ _ _
      exact (hp.symm.eq_nil).symm
  | cons a t₁ ih =>
      intro l₂ hp hs1 hs2 hnd
      cases l₂ with
      | nil => simp at hp
      | cons b t₂ =>
          rw [List.map_cons, List.nodup_cons] at hnd
          have hab : a = b := by
            by_contra hne
            have ha2 : a ∈ b :: t₂ := hp.subset (List.mem_cons_self a t₁)
            have hb1 : b ∈ a :: t₁ := hp.symm.subset (List.mem_cons_self b t₂)
            have ha2' : a ∈ t₂ := by
              rcases List.mem_cons.mp ha2 with h | h
              · exact absurd h hne
              · exact h
            have hb1' : b ∈ t₁ := by
              rcases List.mem_cons.mp hb1 with h | h
              · exact absurd h.symm hne
              · exact h
            have hle1 : fieldLe a b := List.rel_of_sorted_cons hs1 b hb1'
            have hle2 : fieldLe b a := List.rel_of_sorted_cons hs2 a ha2'
            have hk : a.1 = b.1 := string_eq_of_data (strLeB_antisymm _ _ hle1 hle2)
            have hmem : a.1 ∈ t₁.map Prod.fst := hk ▸ List.mem_map_of_mem Prod.fst hb1'
            exact hnd.1 hmem
          subst hab
          have ht := ih t₂ hp.cons_inv hs1.of_cons hs2.of_cons hnd.2
          rw [ht]

theorem stringifyFields_perm_eq (o o' : JObj) (hperm : o.Perm o')
    (hnd : (o.map Prod.fst).Nodup) : stringifyFields o = stringifyFields o' := by
  haveI htot : IsTotal (String × JsonVal) fieldLe := ⟨fun x y => strLeB_total _ _⟩
  haveI htr : IsTrans (String × JsonVal) fieldLe := ⟨fun x y z => strLeB_trans _ _ _⟩
  apply sorted_perm_nodupkeys_eq
  · exact (List.perm_insertionSort fieldLe o).trans
      (hperm.trans (List.perm_insertionSort fieldLe o').symm)
  · exact List.sorted_insertionSort fieldLe o
  · exact List.sorted_insertionSort fieldLe o'
  · exact (((List.perm_insertionSort fieldLe o).map Prod.fst).nodup_iff).mpr hnd

/-! Success-shape lemmas for the individual operations. -/

theorem updateCustomer_ok (st : Ledger) (c : Customer)
    (h : customerExists st c.id = true) :
    updateCustomer st c = .ok (putState st (customerKeyOf c.id) (.customer c)) := by
  simp [updateCustomer, h]

theorem createShopSpecificToken_ok (st : Ledger) (s c : String)
    (h1 : getState st (sstKeyOf s c) = none)
    (h2 : shopExists st s = true) (h3 : customerExists st c = true) :
    createShopSpecificToken st s c =
      .ok (putState st (sstKeyOf s c) (.sst ⟨s, c, 0⟩), sstKeyOf s c) := by
  simp [createShopSpecificToken, entityExists, h1, h2, h3]

theorem increaseShopSpecificToken_ok (st : Ledger) (s c : String) (amt : ℚ)
    (t : ShopSpecificToken) (h : getState st (sstKeyOf s c) = some (.sst t)) :
    increaseShopSpecificToken st s c amt =
      .ok (putState st (sstKeyOf s c) (.sst ⟨t.shopId, t.customerId, t.amount + amt⟩)) := by
  simp [increaseShopSpecificToken, entityExists, h]

theorem updateCustomer_ok_inv (st : Ledger) (c : Customer) (st1 : Ledger)
    (h : updateCustomer st c = .ok st1) :
    st1 = putState st (customerKeyOf c.id) (.customer c) := by
  unfold updateCustomer at h
  split at h
  · simp at h
  · simpa using h.symm

theorem increaseShopSpecificToken_ok_inv (st : Ledger) (s c : String) (amt : ℚ)
    (st1 : Ledger) (h : increaseShopSpecificToken st s c amt = .ok st1) :
    ∃ t, getState st (sstKeyOf s c) = some (.sst t) ∧
      st1 = putState st (sstKeyOf s c) (.sst ⟨t.shopId, t.customerId, t.amount + amt⟩) := by
  unfold increaseShopSpecificToken at h
  simp only [] at h
  split at h
  · simp at h
  · split at h
    · rename_i t hread
      refine ⟨t, hread, ?_⟩
      simpa using h.symm
    · simp at h

theorem createShopSpecificToken_ok_inv (st : Ledger) (s c : String)
    (st1 : Ledger) (k : String) (h : createShopSpecificToken st s c = .ok (st1, k)) :
    getState st (sstKeyOf s c) = none ∧
      st1 = putState st (sstKeyOf s c) (.sst ⟨s, c, 0⟩) := by
  unfold createShopSpecificToken at h
  simp only [] at h
  split at h
  · simp at h
  · rename_i hnex
    split at h
    · simp at h
    · split at h
      · simp at h
      · refine ⟨?_, ?_⟩
        · revert hnex
          unfold entityExists
          cases getState st (sstKeyOf s c) <;> simp
        · simp only [Except.ok.injEq, Prod.mk.injEq] at h
          exact h.1.symm

/-- The full success path of registerPurchase when the shop and customer
records are stored, the SST slot is empty or holds the pair's token, and
the paid amount reaches the threshold: the call succeeds, the customer's
points grow by freePointsOf and the pair's SST amount by shopSpecificOf,
and no other key changes. -/
theorem registerPurchase_ok_spec (st : Ledger) (sid cid : String) (paid : ℚ)
    (S : Shop) (C : Customer)
    (hS : getState st (shopKeyOf sid) = some (.shop S))
    (hC : getState st (customerKeyOf cid) = some (.customer C))
    (hid : C.id = cid)
    (hsst : SstSlotOk st sid cid)
    (hmin : ¬ paid < S.minPriceToGetPoints) :
    ∃ st', registerPurchase st sid cid paid = .ok (st', .okPoints) ∧
      getState st' (customerKeyOf cid) =
        some (.customer ⟨cid, C.points + (freePointsOf S paid : ℚ)⟩) ∧
      getState st' (sstKeyOf sid cid) =
        some (.sst ⟨sid, cid, sstAmount0 st sid cid + shopSpecificOf S paid⟩) ∧
      ∀ k, k ≠ customerKeyOf cid → k ≠ sstKeyOf sid cid → getState st' k = getState st k := by
  subst hid
  have hCne : customerKeyOf C.id ≠ sstKeyOf sid C.id := customerKey_ne_sstKey _ _ _
  have hSne : shopKeyOf sid ≠ customerKeyOf C.id := shopKey_ne_customerKey _ _
  have hex : customerExists st C.id = true := by
    simp [customerExists, entityExists, hC]
  have hshop : shopExists st sid = true := by
    simp [shopExists, entityExists, hS]
  rcases hsst with hnone | ⟨a, hsome⟩
  · refine ⟨putState (putState (putState st (customerKeyOf C.id)
        (.customer ⟨C.id, C.points + (freePointsOf S paid : ℚ)⟩))
        (sstKeyOf sid C.id) (.sst ⟨sid, C.id, 0⟩))
        (sstKeyOf sid C.id) (.sst ⟨sid, C.id, 0 + shopSpecificOf S paid⟩), ?_, ?_, ?_, ?_⟩
    · simp [registerPurchase, hS, hC, hex, hshop, hmin, updateCustomer,
        createShopSpecificToken, increaseShopSpecificToken, shopSpecificTokenExists,
        shopExists, customerExists, entityExists,
        getState_putState_self, getState_putState_ne, hCne, hSne, Ne.symm hCne,
        Ne.symm hSne, hnone, cappedPoints, freePointsOf, shopSpecificOf]
    · simp [getState_putState_self, getState_putState_ne, hCne, Ne.symm hCne]
    · simp [getState_putState_self, sstAmount0, hnone]
    · intro k hk1 hk2
      rw [getState_putState_ne _ _ _ _ (Ne.symm hk2),
        getState_putState_ne _ _ _ _ (Ne.symm hk2),
        getState_putState_ne _ _ _ _ (Ne.symm hk1)]
  · refine ⟨putState (putState st (customerKeyOf C.id)
        (.customer ⟨C.id, C.points + (freePointsOf S paid : ℚ)⟩))
        (sstKeyOf sid C.id) (.sst ⟨sid, C.id, a + shopSpecificOf S paid⟩), ?_, ?_, ?_, ?_⟩
    · simp [registerPurchase, hS, hC, hex, hshop, hmin, updateCustomer,
        increaseShopSpecificToken, shopSpecificTokenExists,
        shopExists, customerExists, entityExists,
        getState_putState_self, getState_putState_ne, hCne, hSne, Ne.symm hCne,
        Ne.symm hSne, hsome, cappedPoints, freePointsOf, shopSpecificOf]
    · simp [getState_putState_self, getState_putState_ne, hCne, Ne.symm hCne]
    · simp [getState_putState_self, sstAmount0, hsome]
    · intro k hk1 hk2
      rw [getState_putState_ne _ _ _ _ (Ne.symm hk2),
        getState_putState_ne _ _ _ _ (Ne.symm hk1)]

theorem cappedPoints_eq_min (S : Shop) (paid : ℚ) :
    cappedPoints S paid = min (paid * S.priceToPointsMultiplier) S.maxGivenPoints := by
  unfold cappedPoints
  rcases lt_or_le S.maxGivenPoints (paid * S.priceToPointsMultiplier) with h | h
  · rw [if_pos h, min_eq_right h.le]
  · rw [if_neg (not_lt.mpr h), min_eq_left h]

/-! The claims. -/

/-- C1: when Shop shopId and Customer customerId are stored and paidAmount
reaches minPriceToGetPoints, registerPurchase computes
capped = min (paidAmount times the multiplier) maxGivenPoints, freePoints as
the round-half-up rounding of capped times freePointsPercentage (jsRound x
is the floor of x + 1/2), shopSpecificPoints = capped - freePoints, and
persists the customer points increased by exactly freePoints and the
(shopId, customerId) SST amount increased by exactly shopSpecificPoints. -/
theorem claim1_registerPurchase_award_split (st : Ledger) (sid cid : String)
    (paid : ℚ) (S : Shop) (C : Customer)
    (hS : getState st (shopKeyOf sid) = some (.shop S))
    (hC : getState st (customerKeyOf cid) = some (.customer C))
    (hid : C.id = cid)
    (hsst : SstSlotOk st sid cid)
    (hmin : S.minPriceToGetPoints ≤ paid) :
    ∃ st', registerPurchase st sid cid paid = .ok (st', .okPoints) ∧
      getState st' (customerKeyOf cid) =
        some (.customer ⟨cid, C.points +
          (jsRound (min (paid * S.priceToPointsMultiplier) S.maxGivenPoints *
            S.freePointsPercentage) : ℚ)⟩) ∧
      getState st' (sstKeyOf sid cid) =
        some (.sst ⟨sid, cid, sstAmount0 st sid cid +
          (min (paid * S.priceToPointsMultiplier) S.maxGivenPoints -
           (jsRound (min (paid * S.priceToPointsMultiplier) S.maxGivenPoints *
             S.freePointsPercentage) : ℚ))⟩) := by
  obtain ⟨st', h1, h2, h3, _⟩ :=
    registerPurchase_ok_spec st sid cid paid S C hS hC hid hsst (not_lt.mpr hmin)
  refine ⟨st', h1, ?_, ?_⟩
  · rw [h2]
    simp only [freePointsOf, cappedPoints_eq_min]
  · rw [h3]
    simp only [shopSpecificOf, freePointsOf, cappedPoints_eq_min]

/-- C1 witness: the spec scenario with freePointsPercentage one half,
multiplier 2, threshold 10, cap 100: a purchase of 50 yields customer
points 50 and SST amount 50. -/
theorem claim1_witness :
    ∃ st', registerPurchase
        [(shopKeyOf "S1", .shop ⟨"S1", 2, 10, 100, 1/2⟩),
         (customerKeyOf "C1", .customer ⟨"C1", 0⟩)] "S1" "C1" 50 =
        .ok (st', .okPoints) ∧
      getState st' (customerKeyOf "C1") = some (.customer ⟨"C1", 50⟩) ∧
      getState st' (sstKeyOf "S1" "C1") = some (.sst ⟨"S1", "C1", 50⟩) := by
  obtain ⟨st', h1, h2, h3⟩ := claim1_registerPurchase_award_split
    [(shopKeyOf "S1", .shop ⟨"S1", 2, 10, 100, 1/2⟩),
     (customerKeyOf "C1", .customer ⟨"C1", 0⟩)] "S1" "C1" 50
    ⟨"S1", 2, 10, 100, 1/2⟩ ⟨"C1", 0⟩ rfl rfl rfl (Or.inl rfl) (by norm_num)
  have ha : sstAmount0
      [(shopKeyOf "S1", .shop ⟨"S1", 2, 10, 100, 1/2⟩),
       (customerKeyOf "C1", .customer ⟨"C1", 0⟩)] "S1" "C1" = 0 := rfl
  rw [ha] at h3
  refine ⟨st', h1, ?_, ?_⟩
  · rw [h2]
    norm_num [jsRound]
  · rw [h3]
    norm_num [jsRound]

/-- C2: whenever registerPurchase returns the full success outcome (the
points-awarding variant), the shop-specific part of the award was actually
persisted: the final state holds an SST for the pair whose amount is the
prior amount (0 when freshly created) plus shopSpecificOf, so success is
never returned while silently dropping the shop-specific award; all other
exits of the algorithm are explicit errors or the distinct no-points
outcome. -/
theorem claim2_shop_specific_award_persisted (st : Ledger) (sid cid : String)
    (paid : ℚ) (st' : Ledger)
    (h : registerPurchase st sid cid paid = .ok (st', .okPoints)) :
    ∃ S : Shop, getState st (shopKeyOf sid) = some (.shop S) ∧
      ∃ t : ShopSpecificToken,
        getState st' (sstKeyOf sid cid) = some (.sst t) ∧
        t.amount = sstAmount0 st sid cid + shopSpecificOf S paid := by
  unfold registerPurchase at h
  split at h
  · simp at h
  · split at h
    · simp at h
    · split at h
      · rename_i x1 x2 S0 C0 hSeq hCeq
        split at h
        · simp at h
        · simp only [] at h
          split at h
          · simp at h
          · rename_i st1 hupd
            split at h
            · simp at h
            · rename_i st2 hif
              split at h
              · simp at h
              · rename_i st3 hinc
                have hst' : st3 = st' := by
                  simpa using h
                subst hst'
                refine ⟨S0, hSeq, ?_⟩
                have hst1 := updateCustomer_ok_inv _ _ _ hupd
                obtain ⟨t, hread, hst3⟩ := increaseShopSpecificToken_ok_inv _ _ _ _ _ hinc
                rw [hst3]
                refine ⟨_, getState_putState_self _ _ _, ?_⟩
                simp only [shopSpecificOf, freePointsOf, cappedPoints]
                have hamount : t.amount = sstAmount0 st sid cid := by
                  split at hif
                  · simp only [Except.ok.injEq] at hif
                    rw [← hif, hst1,
                      getState_putState_ne _ _ _ _ (customerKey_ne_sstKey _ _ _)] at hread
                    unfold sstAmount0
                    rw [hread]
                  · split at hif
                    · simp at hif
                    · rename_i stc sndc heqc
                      simp only [Except.ok.injEq] at hif
                      obtain ⟨hnone1, hst2⟩ := createShopSpecificToken_ok_inv _ _ _ _ _ heqc
                      rw [← hif, hst2, getState_putState_self] at hread
                      have ht : t = ⟨sid, cid, 0⟩ := by
                        have h5 := hread
                        simp only [Option.some.injEq, StoredVal.sst.injEq] at h5
                        exact h5.symm
                      rw [hst1,
                        getState_putState_ne _ _ _ _ (customerKey_ne_sstKey _ _ _)] at hnone1
                      rw [ht]
                      unfold sstAmount0
                      rw [hnone1]
                rw [hamount]
      · simp at h

/-- C2 witness: a concrete successful purchase from a state with an empty
SST slot persists the full shop-specific award. -/
theorem claim2_witness :
    ∃ st', registerPurchase
        [(shopKeyOf "S1", .shop ⟨"S1", 2, 10, 100, 1/2⟩),
         (customerKeyOf "C1", .customer ⟨"C1", 0⟩)] "S1" "C1" 50 =
        .ok (st', .okPoints) ∧
      ∃ S : Shop, getState
          [(shopKeyOf "S1", .shop ⟨"S1", 2, 10, 100, 1/2⟩),
           (customerKeyOf "C1", .customer ⟨"C1", 0⟩)] (shopKeyOf "S1") =
          some (.shop S) ∧
        ∃ t : ShopSpecificToken,
          getState st' (sstKeyOf "S1" "C1") = some (.sst t) ∧
          t.amount = sstAmount0
              [(shopKeyOf "S1", .shop ⟨"S1", 2, 10, 100, 1/2⟩),
               (customerKeyOf "C1", .customer ⟨"C1", 0⟩)] "S1" "C1" +
            shopSpecificOf S 50 := by
  obtain ⟨st', h1, -, -, -⟩ := registerPurchase_ok_spec
    [(shopKeyOf "S1", .shop ⟨"S1", 2, 10, 100, 1/2⟩),
     (customerKeyOf "C1", .customer ⟨"C1", 0⟩)] "S1" "C1" 50
    ⟨"S1", 2, 10, 100, 1/2⟩ ⟨"C1", 0⟩ rfl rfl rfl (Or.inl rfl) (by norm_num)
  exact ⟨st', h1, claim2_shop_specific_award_persisted _ _ _ _ _ h1⟩

/-- C3: whenever the raw award paidAmount times the multiplier exceeds
maxGivenPoints (and the threshold is met), the total persisted award, the
customer points increase plus the SST amount increase, equals exactly
maxGivenPoints. -/
theorem claim3_cap_enforcement (st : Ledger) (sid cid : String) (paid : ℚ)
    (S : Shop) (C : Customer)
    (hS : getState st (shopKeyOf sid) = some (.shop S))
    (hC : getState st (customerKeyOf cid) = some (.customer C))
    (hid : C.id = cid)
    (hsst : SstSlotOk st sid cid)
    (hmin : S.minPriceToGetPoints ≤ paid)
    (hcap : S.maxGivenPoints < paid * S.priceToPointsMultiplier) :
    ∃ st' p t, registerPurchase st sid cid paid = .ok (st', .okPoints) ∧
      getState st' (customerKeyOf cid) = some (.customer p) ∧
      getState st' (sstKeyOf sid cid) = some (.sst t) ∧
      (p.points - C.points) + (t.amount - sstAmount0 st sid cid) = S.maxGivenPoints := by
  obtain ⟨st', h1, h2, h3, _⟩ :=
    registerPurchase_ok_spec st sid cid paid S C hS hC hid hsst (not_lt.mpr hmin)
  refine ⟨st', _, _, h1, h2, h3, ?_⟩
  have hc : cappedPoints S paid = S.maxGivenPoints := by
    unfold cappedPoints
    rw [if_pos hcap]
  simp only [shopSpecificOf, hc]
  ring

/-- C3 witness: multiplier 2, cap 100, paid 60: the raw award 120 is capped
and the two persisted increases sum to exactly 100. -/
theorem claim3_witness :
    ∃ st' p t, registerPurchase
        [(shopKeyOf "S1", .shop ⟨"S1", 2, 10, 100, 1/2⟩),
         (customerKeyOf "C1", .customer ⟨"C1", 0⟩)] "S1" "C1" 60 =
        .ok (st', .okPoints) ∧
      getState st' (customerKeyOf "C1") = some (.customer p) ∧
      getState st' (sstKeyOf "S1" "C1") = some (.sst t) ∧
      (p.points - 0) + (t.amount - sstAmount0
        [(shopKeyOf "S1", .shop ⟨"S1", 2, 10, 100, 1/2⟩),
         (customerKeyOf "C1", .customer ⟨"C1", 0⟩)] "S1" "C1") = 100 :=
  claim3_cap_enforcement
    [(shopKeyOf "S1", .shop ⟨"S1", 2, 10, 100, 1/2⟩),
     (customerKeyOf "C1", .customer ⟨"C1", 0⟩)] "S1" "C1" 60
    ⟨"S1", 2, 10, 100, 1/2⟩ ⟨"C1", 0⟩ rfl rfl rfl (Or.inl rfl)
    (by norm_num) (by norm_num)

/-- C4: when the shop and customer are stored and paidAmount is below
minPriceToGetPoints, registerPurchase returns the distinct no-points
success outcome with the ledger unchanged, so zero writes happen and every
customer points and SST amount balance is untouched. -/
theorem claim4_threshold_noop (st : Ledger) (sid cid : String) (paid : ℚ)
    (S : Shop) (C : Customer)
    (hS : getState st (shopKeyOf sid) = some (.shop S))
    (hC : getState st (customerKeyOf cid) = some (.customer C))
    (hlt : paid < S.minPriceToGetPoints) :
    registerPurchase st sid cid paid = .ok (st, .noPoints) := by
  simp [registerPurchase, hS, hC, customerExists, shopExists, entityExists, hlt]

/-- C4 witness: a purchase of 5 against threshold 10 returns the no-points
outcome on the very same ledger. -/
theorem claim4_witness :
    registerPurchase
      [(shopKeyOf "S1", .shop ⟨"S1", 2, 10, 100, 1/2⟩),
       (customerKeyOf "C1", .customer ⟨"C1", 0⟩)] "S1" "C1" 5 =
    .ok ([(shopKeyOf "S1", .shop ⟨"S1", 2, 10, 100, 1/2⟩),
       (customerKeyOf "C1", .customer ⟨"C1", 0⟩)], .noPoints) :=
  claim4_threshold_noop
    [(shopKeyOf "S1", .shop ⟨"S1", 2, 10, 100, 1/2⟩),
     (customerKeyOf "C1", .customer ⟨"C1", 0⟩)] "S1" "C1" 5
    ⟨"S1", 2, 10, 100, 1/2⟩ ⟨"C1", 0⟩ rfl rfl (by norm_num)

/-- C7: createCoupon fails with InvalidArgument when n is below 1, with
NotFound when nothing is stored at the raw key typeId, with InactiveType
when the stored coupon type is inactive, and otherwise prepends exactly
n.toNat coupon records with ids couponId idBase 0 through
couponId idBase (n-1), all sharing typeId, owner, validUntil and seriesId;
on every failure branch the call returns an error carrying no state, so
zero coupon records are created there. -/
theorem claim7_createCoupon_branches (st : Ledger)
    (idBase typeId owner validUntil seriesId : String) (n : ℤ) :
    (n < 1 →
      ∃ e, createCoupon st idBase typeId owner validUntil seriesId n = .error e ∧
        e.kind = .invalidArgument) ∧
    (1 ≤ n → getState st typeId = none →
      ∃ e, createCoupon st idBase typeId owner validUntil seriesId n = .error e ∧
        e.kind = .notFound) ∧
    (∀ ct : CouponType, 1 ≤ n → getState st typeId = some (.couponType ct) →
      ct.active = false →
      ∃ e, createCoupon st idBase typeId owner validUntil seriesId n = .error e ∧
        e.kind = .inactiveType) ∧
    (∀ ct : CouponType, 1 ≤ n → getState st typeId = some (.couponType ct) →
      ct.active = true →
      createCoupon st idBase typeId owner validUntil seriesId n =
        .ok (couponBatch idBase typeId owner validUntil seriesId n ++ st) ∧
      (couponBatch idBase typeId owner validUntil seriesId n).length = n.toNat ∧
      couponBatch idBase typeId owner validUntil seriesId n =
        ((List.range n.toNat).map fun i =>
          (couponKeyOf (couponId idBase i) typeId,
           StoredVal.coupon ⟨couponId idBase i, typeId, owner, validUntil,
             seriesId⟩)).reverse) := by
  refine ⟨?_, ?_, ?_, ?_⟩
  · intro hn
    unfold createCoupon
    rw [if_pos hn]
    exact ⟨_, rfl, rfl⟩
  · intro hn hnone
    unfold createCoupon
    rw [if_neg (by omega), hnone]
    exact ⟨_, rfl, rfl⟩
  · intro ct hn hsome hact
    unfold createCoupon
    rw [if_neg (by omega), hsome]
    simp only [storedActiveFlag, hact, if_pos]
    exact ⟨_, rfl, rfl⟩
  · intro ct hn hsome hact
    refine ⟨?_, by simp [couponBatch], rfl⟩
    unfold createCoupon
    rw [if_neg (by omega), hsome]
    simp only [storedActiveFlag, hact, Bool.true_eq_false, if_false]
    exact congrArg Except.ok (foldl_put_eq_reverse_map_append
      (fun i => (couponKeyOf (couponId idBase i) typeId,
        StoredVal.coupon ⟨couponId idBase i, typeId, owner, validUntil, seriesId⟩))
      (List.range n.toNat) st)

/-- C7 witness: the four branches at concrete inputs, with the spec
scenario of a batch of three coupons C underscore 0 to C underscore 2
against an active type, and zero records on the inactive branch. -/
theorem claim7_witness :
    (∃ e, createCoupon [("T1", .couponType ⟨"S1", "percent", "10", true⟩)]
        "C" "T1" "owner1" "2024-01-01" "series1" 0 = .error e ∧
      e.kind = .invalidArgument) ∧
    (∃ e, createCoupon ([] : Ledger) "C" "T1" "owner1" "2024-01-01" "series1" 1 =
        .error e ∧ e.kind = .notFound) ∧
    (∃ e, createCoupon [("T1", .couponType ⟨"S1", "percent", "10", false⟩)]
        "C" "T1" "owner1" "2024-01-01" "series1" 1 = .error e ∧
      e.kind = .inactiveType) ∧
    (createCoupon [("T1", .couponType ⟨"S1", "percent", "10", true⟩)]
        "C" "T1" "owner1" "2024-01-01" "series1" 3 =
      .ok (couponBatch "C" "T1" "owner1" "2024-01-01" "series1" 3 ++
        [("T1", .couponType ⟨"S1", "percent", "10", true⟩)]) ∧
      (couponBatch "C" "T1" "owner1" "2024-01-01" "series1" 3).length = 3) := by
  refine ⟨?_, ?_, ?_, ?_⟩
  · exact (claim7_createCoupon_branches _ "C" "T1" "owner1" "2024-01-01" "series1" 0).1
      (by norm_num)
  · exact (claim7_createCoupon_branches _ "C" "T1" "owner1" "2024-01-01" "series1" 1).2.1
      (by norm_num) rfl
  · exact (claim7_createCoupon_branches _ "C" "T1" "owner1" "2024-01-01"
      "series1" 1).2.2.1 ⟨"S1", "percent", "10", false⟩ (by norm_num) rfl rfl
  · obtain ⟨h1, h2, -⟩ := (claim7_createCoupon_branches
      [("T1", .couponType ⟨"S1", "percent", "10", true⟩)] "C" "T1" "owner1"
      "2024-01-01" "series1" 3).2.2.2 ⟨"S1", "percent", "10", true⟩
      (by norm_num) rfl rfl
    exact ⟨h1, h2⟩

/-- C9: createCoupon looks the coupon type up with getState on the raw
typeId argument, while createCouponType stores types at the null-prefixed
composite key of (shopId, kind, val); every composite key starts with the
reserved null rune, so in a ledger written only through the contract (all
keys composite) a plain typeId equal to any identifying field of an
existing CouponType finds nothing and createCoupon fails with NotFound. -/
theorem claim9_raw_typeId_lookup_fails (st : Ledger)
    (idBase typeId owner validUntil seriesId : String) (n : ℤ)
    (s k v : String) (ct : CouponType)
    (hkeys : ∀ p ∈ st, startsWithNul p.1 = true)
    (_hct : getState st (couponTypeKeyOf s k v) = some (.couponType ct))
    (_hty : typeId = ct.shopId ∨ typeId = ct.kind ∨ typeId = ct.val)
    (hplain : startsWithNul typeId = false)
    (hn : 1 ≤ n) :
    startsWithNul (couponTypeKeyOf s k v) = true ∧
    ∃ e, createCoupon st idBase typeId owner validUntil seriesId n = .error e ∧
      e.kind = .notFound := by
  refine ⟨createCompositeKey_startsWithNul _ _, ?_⟩
  have hnone : getState st typeId = none := getState_eq_none_of_keys_nul hkeys hplain
  unfold createCoupon
  rw [if_neg (by omega), hnone]
  exact ⟨_, rfl, rfl⟩

/-- C9 witness: after createCouponType writes the type for
(S1, percent, 10), createCoupon with the plain typeId S1 fails NotFound. -/
theorem claim9_witness :
    startsWithNul (couponTypeKeyOf "S1" "percent" "10") = true ∧
    ∃ e, createCoupon
        [(couponTypeKeyOf "S1" "percent" "10",
          .couponType ⟨"S1", "percent", "10", true⟩)]
        "C" "S1" "owner1" "2024-01-01" "series1" 1 = .error e ∧
      e.kind = .notFound :=
  claim9_raw_typeId_lookup_fails
    [(couponTypeKeyOf "S1" "percent" "10",
      .couponType ⟨"S1", "percent", "10", true⟩)]
    "C" "S1" "owner1" "2024-01-01" "series1" 1 "S1" "percent" "10"
    ⟨"S1", "percent", "10", true⟩
    (by
      intro p hp
      rw [List.mem_singleton] at hp
      subst hp
      exact createCompositeKey_startsWithNul _ _)
    rfl (Or.inl rfl) rfl (by norm_num)

/-- C10: a shop created through createShop (freePointsPercentage fixed at
1) with multiplier 2, threshold 1 and cap 100, and a fresh customer: the
purchase of 53 tenths passes all preconditions, capped = 53 fifths is not
an integer, freePoints rounds up to 11, shopSpecificPoints is negative,
and the successful call persists a freshly created SST with a strictly
negative amount. -/
theorem claim10_negative_sst_amount :
    createShop [] "S1" 2 1 100 =
      .ok ([(shopKeyOf "S1", .shop ⟨"S1", 2, 1, 100, 1⟩)], shopKeyOf "S1") ∧
    createCustomer [(shopKeyOf "S1", .shop ⟨"S1", 2, 1, 100, 1⟩)] "C1" =
      .ok ([(customerKeyOf "C1", .customer ⟨"C1", 0⟩),
            (shopKeyOf "S1", .shop ⟨"S1", 2, 1, 100, 1⟩)], customerKeyOf "C1") ∧
    ∃ st' t, registerPurchase
        [(customerKeyOf "C1", .customer ⟨"C1", 0⟩),
         (shopKeyOf "S1", .shop ⟨"S1", 2, 1, 100, 1⟩)] "S1" "C1" (53/10) =
        .ok (st', .okPoints) ∧
      getState st' (sstKeyOf "S1" "C1") = some (.sst t) ∧ t.amount < 0 := by
  refine ⟨rfl, rfl, ?_⟩
  obtain ⟨st', h1, -, h3, -⟩ := registerPurchase_ok_spec
    [(customerKeyOf "C1", .customer ⟨"C1", 0⟩),
     (shopKeyOf "S1", .shop ⟨"S1", 2, 1, 100, 1⟩)] "S1" "C1" (53/10)
    ⟨"S1", 2, 1, 100, 1⟩ ⟨"C1", 0⟩ rfl rfl rfl (Or.inl rfl) (by norm_num)
  refine ⟨st', _, h1, h3, ?_⟩
  have h0 : sstAmount0
      [(customerKeyOf "C1", .customer ⟨"C1", 0⟩),
       (shopKeyOf "S1", .shop ⟨"S1", 2, 1, 100, 1⟩)] "S1" "C1" = 0 := rfl
  rw [h0]
  norm_num [shopSpecificOf, freePointsOf, cappedPoints, jsRound]

theorem getState_eq_none_of_not_exists {st : Ledger} {k : String}
    (h : ¬ entityExists st k = true) : getState st k = none := by
  unfold entityExists at h
  cases hg : getState st k with
  | none => rfl
  | some v => rw [hg] at h; simp at h

theorem createShop_ok_inv (st : Ledger) (id : String) (m p x : ℚ)
    (st1 : Ledger) (k : String) (h : createShop st id m p x = .ok (st1, k)) :
    getState st (shopKeyOf id) = none ∧
      st1 = putState st (shopKeyOf id) (.shop ⟨id, m, p, x, 1⟩) := by
  unfold createShop at h
  split at h
  · simp at h
  · rename_i hne
    simp only [Except.ok.injEq, Prod.mk.injEq] at h
    refine ⟨?_, h.1.symm⟩
    apply getState_eq_none_of_not_exists
    simpa [shopExists] using hne

theorem createCustomer_ok_inv (st : Ledger) (id : String)
    (st1 : Ledger) (k : String) (h : createCustomer st id = .ok (st1, k)) :
    getState st (customerKeyOf id) = none ∧
      st1 = putState st (customerKeyOf id) (.customer ⟨id, 0⟩) := by
  unfold createCustomer at h
  split at h
  · simp at h
  · rename_i hne
    simp only [Except.ok.injEq, Prod.mk.injEq] at h
    refine ⟨?_, h.1.symm⟩
    apply getState_eq_none_of_not_exists
    simpa [customerExists] using hne

theorem register_ok_inv (st : Ledger) (cid uid role : String)
    (st1 : Ledger) (k : String) (h : register st cid uid role = .ok (st1, k)) :
    getState st (userKeyOf cid) = none ∧
      ∃ r, userRoleFromString role = some r ∧
        st1 = putState st (userKeyOf cid) (.user ⟨uid, r⟩) := by
  unfold register at h
  simp only [] at h
  split at h
  · simp at h
  · rename_i hne
    refine ⟨getState_eq_none_of_not_exists hne, ?_⟩
    split at h
    · simp at h
    · rename_i r hr
      simp only [Except.ok.injEq, Prod.mk.injEq] at h
      exact ⟨r, hr, h.1.symm⟩

/-- C5 counterexample: createCouponType performs no existence check, so a
second create with identical identifying fields succeeds (overwrites)
instead of failing with AlreadyExists, refuting the claim for the
CouponType entity type. -/
theorem claim5_counterexample :
    createCouponType [] "S1" "percent" "10" =
      .ok [(couponTypeKeyOf "S1" "percent" "10",
            .couponType ⟨"S1", "percent", "10", true⟩)] ∧
    exOk (createCouponType
      [(couponTypeKeyOf "S1" "percent" "10",
        .couponType ⟨"S1", "percent", "10", true⟩)]
      "S1" "percent" "10") = true :=
  ⟨rfl, rfl⟩

/-- C5 amended: for the four existence-checked entity types (Shop via
createShop, Customer via createCustomer, User via register, SST via
createShopSpecificToken), a second create with identical identifying
fields fails with AlreadyExists and the record written by the first call
is still stored unaltered (the failing call returns an error carrying no
state, so it writes nothing); createCouponType and createCoupon have no
existence check and overwrite silently. -/
theorem claim5_amended_uniqueness :
    (∀ (st : Ledger) (id : String) (m p x : ℚ) (st1 : Ledger) (k : String),
      createShop st id m p x = .ok (st1, k) →
      getState st1 (shopKeyOf id) = some (.shop ⟨id, m, p, x, 1⟩) ∧
      ∀ m2 p2 x2 : ℚ, ∃ e, createShop st1 id m2 p2 x2 = .error e ∧
        e.kind = .alreadyExists) ∧
    (∀ (st : Ledger) (id : String) (st1 : Ledger) (k : String),
      createCustomer st id = .ok (st1, k) →
      getState st1 (customerKeyOf id) = some (.customer ⟨id, 0⟩) ∧
      ∃ e, createCustomer st1 id = .error e ∧ e.kind = .alreadyExists) ∧
    (∀ (st : Ledger) (cid uid role : String) (st1 : Ledger) (k : String),
      register st cid uid role = .ok (st1, k) →
      ∀ uid2 role2, ∃ e, register st1 cid uid2 role2 = .error e ∧
        e.kind = .alreadyExists) ∧
    (∀ (st : Ledger) (s c : String) (st1 : Ledger) (k : String),
      createShopSpecificToken st s c = .ok (st1, k) →
      getState st1 (sstKeyOf s c) = some (.sst ⟨s, c, 0⟩) ∧
      ∃ e, createShopSpecificToken st1 s c = .error e ∧
        e.kind = .alreadyExists) := by
  refine ⟨?_, ?_, ?_, ?_⟩
  · intro st id m p x st1 k h
    obtain ⟨-, hst1⟩ := createShop_ok_inv _ _ _ _ _ _ _ h
    subst hst1
    refine ⟨getState_putState_self _ _ _, ?_⟩
    intro m2 p2 x2
    unfold createShop
    simp [shopExists, entityExists, getState_putState_self]
  · intro st id st1 k h
    obtain ⟨-, hst1⟩ := createCustomer_ok_inv _ _ _ _ h
    subst hst1
    refine ⟨getState_putState_self _ _ _, ?_⟩
    unfold createCustomer
    simp [customerExists, entityExists, getState_putState_self]
  · intro st cid uid role st1 k h
    obtain ⟨-, r, -, hst1⟩ := register_ok_inv _ _ _ _ _ _ h
    subst hst1
    intro uid2 role2
    unfold register
    simp [entityExists, getState_putState_self]
  · intro st s c st1 k h
    obtain ⟨-, hst1⟩ := createShopSpecificToken_ok_inv _ _ _ _ _ h
    subst hst1
    refine ⟨getState_putState_self _ _ _, ?_⟩
    unfold createShopSpecificToken
    simp [entityExists, getState_putState_self]

/-- C5 witness: the four amended conjuncts at concrete inputs, where the
first create from a concrete state succeeds by evaluation. -/
theorem claim5_witness :
    (getState [(shopKeyOf "S1", .shop ⟨"S1", 2, 10, 100, 1⟩)] (shopKeyOf "S1") =
      some (.shop ⟨"S1", 2, 10, 100, 1⟩) ∧
     ∃ e, createShop [(shopKeyOf "S1", .shop ⟨"S1", 2, 10, 100, 1⟩)] "S1" 2 10 100 =
        .error e ∧ e.kind = .alreadyExists) ∧
    (getState [(customerKeyOf "C1", .customer ⟨"C1", 0⟩)] (customerKeyOf "C1") =
      some (.customer ⟨"C1", 0⟩) ∧
     ∃ e, createCustomer [(customerKeyOf "C1", .customer ⟨"C1", 0⟩)] "C1" =
        .error e ∧ e.kind = .alreadyExists) ∧
    (∃ e, register [(userKeyOf "client1", .user ⟨"u1", .admin⟩)]
        "client1" "u1" "admin" = .error e ∧ e.kind = .alreadyExists) ∧
    (getState [(sstKeyOf "S1" "C1", .sst ⟨"S1", "C1", 0⟩),
        (customerKeyOf "C1", .customer ⟨"C1", 0⟩),
        (shopKeyOf "S1", .shop ⟨"S1", 2, 10, 100, 1⟩)] (sstKeyOf "S1" "C1") =
      some (.sst ⟨"S1", "C1", 0⟩) ∧
     ∃ e, createShopSpecificToken
        [(sstKeyOf "S1" "C1", .sst ⟨"S1", "C1", 0⟩),
         (customerKeyOf "C1", .customer ⟨"C1", 0⟩),
         (shopKeyOf "S1", .shop ⟨"S1", 2, 10, 100, 1⟩)] "S1" "C1" =
        .error e ∧ e.kind = .alreadyExists) := by
  refine ⟨?_, ?_, ?_, ?_⟩
  · obtain ⟨h1, h2⟩ := claim5_amended_uniqueness.1 [] "S1" 2 10 100
      [(shopKeyOf "S1", .shop ⟨"S1", 2, 10, 100, 1⟩)] (shopKeyOf "S1") rfl
    exact ⟨h1, h2 2 10 100⟩
  · exact claim5_amended_uniqueness.2.1 [] "C1"
      [(customerKeyOf "C1", .customer ⟨"C1", 0⟩)] (customerKeyOf "C1") rfl
  · exact claim5_amended_uniqueness.2.2.1 [] "client1" "u1" "admin"
      [(userKeyOf "client1", .user ⟨"u1", .admin⟩)] (userKeyOf "client1") rfl
      "u1" "admin"
  · exact claim5_amended_uniqueness.2.2.2
      [(customerKeyOf "C1", .customer ⟨"C1", 0⟩),
       (shopKeyOf "S1", .shop ⟨"S1", 2, 10, 100, 1⟩)] "S1" "C1"
      [(sstKeyOf "S1" "C1", .sst ⟨"S1", "C1", 0⟩),
       (customerKeyOf "C1", .customer ⟨"C1", 0⟩),
       (shopKeyOf "S1", .shop ⟨"S1", 2, 10, 100, 1⟩)] (sstKeyOf "S1" "C1") rfl

/-- C8: for every record of every entity type, decoding the key-sorted
deterministic encoding returns the record unchanged, and the encoding is
insensitive to the in-memory field order: any two field lists that are
permutations of each other with no duplicate keys produce the same sorted
output, hence the same rendered bytes. -/
theorem claim8_serialization_roundtrip :
    (∀ s : Shop, decodeShop (encodeShop s) = some s) ∧
    (∀ c : Customer, decodeCustomer (encodeCustomer c) = some c) ∧
    (∀ ct : CouponType, decodeCouponType (encodeCouponType ct) = some ct) ∧
    (∀ c : Coupon, decodeCoupon (encodeCoupon c) = some c) ∧
    (∀ t : ShopSpecificToken, decodeSst (encodeSst t) = some t) ∧
    (∀ u : User, decodeUser (encodeUser u) = some u) ∧
    (∀ o o' : JObj, o.Perm o' → (o.map Prod.fst).Nodup →
      stringifyFields o = stringifyFields o') := by
  refine ⟨fun s => rfl, fun c => rfl, fun ct => rfl, fun c => rfl, fun t => rfl,
    ?_, stringifyFields_perm_eq⟩
  intro u
  cases u with
  | mk id role => cases role <;> rfl

/-- C8 witness: a concrete shop round trip, and the same encoded field
list from two different in-memory insertion orders. -/
theorem claim8_witness :
    decodeShop (encodeShop ⟨"S1", 2, 10, 100, 1⟩) = some ⟨"S1", 2, 10, 100, 1⟩ ∧
    stringifyFields [("id", .str "u1"), ("role", .str "admin")] =
      stringifyFields [("role", .str "admin"), ("id", .str "u1")] :=
  ⟨claim8_serialization_roundtrip.1 ⟨"S1", 2, 10, 100, 1⟩,
   claim8_serialization_roundtrip.2.2.2.2.2.2
     [("id", .str "u1"), ("role", .str "admin")]
     [("role", .str "admin"), ("id", .str "u1")]
     (List.Perm.swap ("role", JsonVal.str "admin") ("id", JsonVal.str "u1") [])
     (by decide)⟩

/-! Balance-preservation helpers for the frame part of C6. -/

theorem balanceAt_putState_fresh (st : Ledger) (k : String) (v : StoredVal)
    (hfresh : getState st k = none) (key : String) (q : ℚ)
    (h : balanceAt st key = some q) : balanceAt (putState st k v) key = some q := by
  by_cases hk : k = key
  · subst hk
    unfold balanceAt at h
    rw [hfresh] at h
    simp at h
  · unfold balanceAt at h ⊢
    rw [getState_putState_ne _ _ _ _ hk]
    exact h

theorem balanceAt_put_nonbalance (st : Ledger) (hwp : WellPlaced st) (k : String)
    (v : StoredVal)
    (hkc : ∀ c : String, k ≠ customerKeyOf c)
    (hks : ∀ s c : String, k ≠ sstKeyOf s c)
    (key : String) (q : ℚ)
    (h : balanceAt st key = some q) : balanceAt (putState st k v) key = some q := by
  by_cases hk : k = key
  · subst hk
    unfold balanceAt at h
    cases hg : getState st k with
    | none => rw [hg] at h; simp at h
    | some w =>
        rw [hg] at h
        have hp := hwp _ (mem_of_getState_eq_some hg)
        cases w with
        | customer c => exact absurd hp (hkc c.id)
        | sst t => exact absurd hp (hks t.shopId t.customerId)
        | shop s => simp at h
        | couponType ct => simp at h
        | coupon cp => simp at h
        | user u => simp at h
  · unfold balanceAt at h ⊢
    rw [getState_putState_ne _ _ _ _ hk]
    exact h

theorem createCoupon_ok_inv (st : Ledger) (idBase typeId owner vu se : String)
    (n : ℤ) (st1 : Ledger)
    (h : createCoupon st idBase typeId owner vu se n = .ok st1) :
    st1 = couponBatch idBase typeId owner vu se n ++ st := by
  unfold createCoupon at h
  split at h
  · simp at h
  · split at h
    · simp at h
    · split at h
      · simp at h
      · simp only [Except.ok.injEq] at h
        rw [← h]
        exact foldl_put_eq_reverse_map_append
          (fun i => (couponKeyOf (couponId idBase i) typeId,
            StoredVal.coupon ⟨couponId idBase i, typeId, owner, vu, se⟩))
          (List.range n.toNat) st

theorem balanceAt_couponBatch_append (st : Ledger) (hwp : WellPlaced st)
    (idBase typeId owner vu se : String) (n : ℤ) (key : String) (q : ℚ)
    (h : balanceAt st key = some q) :
    balanceAt (couponBatch idBase typeId owner vu se n ++ st) key = some q := by
  have hkeys : ∀ p ∈ couponBatch idBase typeId owner vu se n, p.1 ≠ key := by
    intro p hp
    unfold couponBatch at hp
    rw [List.mem_reverse, List.mem_map] at hp
    obtain ⟨i, -, hpi⟩ := hp
    subst hpi
    unfold balanceAt at h
    cases hg : getState st key with
    | none => rw [hg] at h; simp at h
    | some w =>
        rw [hg] at h
        have hp2 := hwp _ (mem_of_getState_eq_some hg)
        cases w with
        | customer c =>
            have hkey : key = customerKeyOf c.id := hp2
            rw [hkey]
            exact couponKey_ne_customerKey _ _ _
        | sst t =>
            have hkey : key = sstKeyOf t.shopId t.customerId := hp2
            rw [hkey]
            exact couponKey_ne_sstKey _ _ _ _
        | shop s => simp at h
        | couponType ct => simp at h
        | coupon cp => simp at h
        | user u => simp at h
  unfold balanceAt at h ⊢
  rw [getState_append_of_not_mem _ _ _ hkeys]
  exact h

/-- C6 counterexample: updateCustomer is a public operation that
overwrites the stored Customer record with its argument, so it decreases
Customer.points from 5 to 0 on a successful call, refuting the claim that
no operation ever decreases a Customer points balance. -/
theorem claim6_counterexample :
    updateCustomer [(customerKeyOf "C1", .customer ⟨"C1", 5⟩)] ⟨"C1", 0⟩ =
      .ok [(customerKeyOf "C1", .customer ⟨"C1", 0⟩),
           (customerKeyOf "C1", .customer ⟨"C1", 5⟩)] ∧
    balanceAt [(customerKeyOf "C1", .customer ⟨"C1", 5⟩)]
      (customerKeyOf "C1") = some 5 ∧
    balanceAt [(customerKeyOf "C1", .customer ⟨"C1", 0⟩),
               (customerKeyOf "C1", .customer ⟨"C1", 5⟩)]
      (customerKeyOf "C1") = some 0 ∧
    (0 : ℚ) < 5 :=
  ⟨rfl, rfl, rfl, by norm_num⟩

/-- C6 amended: the operations other than updateCustomer and the
Settlement Engine never change any stored Customer points or SST amount
balance (for the unconditional writers createCouponType and createCoupon
this holds in well-placed ledgers, where each Customer or SST record sits
at its own composite key, as every contract write arranges), and
increaseShopSpecificToken with a nonnegative addAmount never decreases
any stored balance; updateCustomer can decrease Customer.points (see the
counterexample) and the settlement deltas themselves can be negative. -/
theorem claim6_amended_balance_monotonicity :
    (∀ (st : Ledger) (cid uid role : String) (st1 : Ledger) (k : String),
      register st cid uid role = .ok (st1, k) →
      ∀ key q, balanceAt st key = some q → balanceAt st1 key = some q) ∧
    (∀ (st : Ledger) (id : String) (m p x : ℚ) (st1 : Ledger) (k : String),
      createShop st id m p x = .ok (st1, k) →
      ∀ key q, balanceAt st key = some q → balanceAt st1 key = some q) ∧
    (∀ (st : Ledger) (id : String) (st1 : Ledger) (k : String),
      createCustomer st id = .ok (st1, k) →
      ∀ key q, balanceAt st key = some q → balanceAt st1 key = some q) ∧
    (∀ (st : Ledger) (s c : String) (st1 : Ledger) (k : String),
      createShopSpecificToken st s c = .ok (st1, k) →
      ∀ key q, balanceAt st key = some q → balanceAt st1 key = some q) ∧
    (∀ (st : Ledger) (s kk v : String) (st1 : Ledger),
      WellPlaced st → createCouponType st s kk v = .ok st1 →
      ∀ key q, balanceAt st key = some q → balanceAt st1 key = some q) ∧
    (∀ (st : Ledger) (idBase typeId owner vu se : String) (n : ℤ) (st1 : Ledger),
      WellPlaced st → createCoupon st idBase typeId owner vu se n = .ok st1 →
      ∀ key q, balanceAt st key = some q → balanceAt st1 key = some q) ∧
    (∀ (st : Ledger) (s c : String) (amt : ℚ) (st1 : Ledger),
      0 ≤ amt → increaseShopSpecificToken st s c amt = .ok st1 →
      ∀ key q, balanceAt st key = some q →
        ∃ q2, balanceAt st1 key = some q2 ∧ q ≤ q2) := by
  refine ⟨?_, ?_, ?_, ?_, ?_, ?_, ?_⟩
  · intro st cid uid role st1 k h key q hq
    obtain ⟨hfresh, r, -, hst1⟩ := register_ok_inv _ _ _ _ _ _ h
    subst hst1
    exact balanceAt_putState_fresh _ _ _ hfresh _ _ hq
  · intro st id m p x st1 k h key q hq
    obtain ⟨hfresh, hst1⟩ := createShop_ok_inv _ _ _ _ _ _ _ h
    subst hst1
    exact balanceAt_putState_fresh _ _ _ hfresh _ _ hq
  · intro st id st1 k h key q hq
    obtain ⟨hfresh, hst1⟩ := createCustomer_ok_inv _ _ _ _ h
    subst hst1
    exact balanceAt_putState_fresh _ _ _ hfresh _ _ hq
  · intro st s c st1 k h key q hq
    obtain ⟨hfresh, hst1⟩ := createShopSpecificToken_ok_inv _ _ _ _ _ h
    subst hst1
    exact balanceAt_putState_fresh _ _ _ hfresh _ _ hq
  · intro st s kk v st1 hwp h key q hq
    have hst1 : st1 = putState st (couponTypeKeyOf s kk v)
        (.couponType ⟨s, kk, v, true⟩) := by
      unfold createCouponType at h
      simpa using h.symm
    subst hst1
    exact balanceAt_put_nonbalance _ hwp _ _
      (fun c => couponTypeKey_ne_customerKey _ _ _ _)
      (fun a b => couponTypeKey_ne_sstKey _ _ _ _ _) _ _ hq
  · intro st idBase typeId owner vu se n st1 hwp h key q hq
    have hst1 := createCoupon_ok_inv _ _ _ _ _ _ _ _ h
    subst hst1
    exact balanceAt_couponBatch_append _ hwp _ _ _ _ _ _ _ _ hq
  · intro st s c amt st1 hamt h key q hq
    obtain ⟨t, hread, hst1⟩ := increaseShopSpecificToken_ok_inv _ _ _ _ _ h
    subst hst1
    by_cases hk : sstKeyOf s c = key
    · subst hk
      unfold balanceAt at hq
      rw [hread] at hq
      simp only [Option.some.injEq] at hq
      refine ⟨t.amount + amt, ?_, ?_⟩
      · unfold balanceAt
        rw [getState_putState_self]
      · rw [← hq]
        linarith
    · refine ⟨q, ?_, le_refl q⟩
      unfold balanceAt at hq ⊢
      rw [getState_putState_ne _ _ _ _ hk]
      exact hq

/-- C6 witness: each amended conjunct exercised at a concrete ledger
holding a customer with 7 points (or an SST with 2), whose balance
survives the operation; the increase by 3 does not decrease the amount. -/
theorem claim6_witness :
    balanceAt ((userKeyOf "client1", .user ⟨"u1", .admin⟩) ::
        [(customerKeyOf "C1", .customer ⟨"C1", 7⟩)])
      (customerKeyOf "C1") = some 7 ∧
    balanceAt ((shopKeyOf "S1", .shop ⟨"S1", 2, 10, 100, 1⟩) ::
        [(customerKeyOf "C1", .customer ⟨"C1", 7⟩)])
      (customerKeyOf "C1") = some 7 ∧
    balanceAt ((customerKeyOf "C2", .customer ⟨"C2", 0⟩) ::
        [(customerKeyOf "C1", .customer ⟨"C1", 7⟩)])
      (customerKeyOf "C1") = some 7 ∧
    balanceAt ((sstKeyOf "S1" "C1", .sst ⟨"S1", "C1", 0⟩) ::
        [(customerKeyOf "C1", .customer ⟨"C1", 7⟩),
         (shopKeyOf "S1", .shop ⟨"S1", 2, 10, 100, 1⟩)])
      (customerKeyOf "C1") = some 7 ∧
    balanceAt ((couponTypeKeyOf "S1" "percent" "10",
        .couponType ⟨"S1", "percent", "10", true⟩) ::
        [(customerKeyOf "C1", .customer ⟨"C1", 7⟩)])
      (customerKeyOf "C1") = some 7 ∧
    balanceAt (couponBatch "C" "T1" "owner1" "2024-01-01" "series1" 1 ++
        [("T1", .couponType ⟨"S1", "percent", "10", true⟩),
         (customerKeyOf "C1", .customer ⟨"C1", 7⟩)])
      (customerKeyOf "C1") = some 7 ∧
    (∃ q2, balanceAt ((sstKeyOf "S1" "C1", .sst ⟨"S1", "C1", 2 + 3⟩) ::
        [(sstKeyOf "S1" "C1", .sst ⟨"S1", "C1", 2⟩)])
      (sstKeyOf "S1" "C1") = some q2 ∧ (2 : ℚ) ≤ q2) := by
  refine ⟨?_, ?_, ?_, ?_, ?_, ?_, ?_⟩
  · exact claim6_amended_balance_monotonicity.1
      [(customerKeyOf "C1", .customer ⟨"C1", 7⟩)] "client1" "u1" "admin"
      ((userKeyOf "client1", .user ⟨"u1", .admin⟩) ::
        [(customerKeyOf "C1", .customer ⟨"C1", 7⟩)]) (userKeyOf "client1") rfl
      (customerKeyOf "C1") 7 rfl
  · exact claim6_amended_balance_monotonicity.2.1
      [(customerKeyOf "C1", .customer ⟨"C1", 7⟩)] "S1" 2 10 100
      ((shopKeyOf "S1", .shop ⟨"S1", 2, 10, 100, 1⟩) ::
        [(customerKeyOf "C1", .customer ⟨"C1", 7⟩)]) (shopKeyOf "S1") rfl
      (customerKeyOf "C1") 7 rfl
  · exact claim6_amended_balance_monotonicity.2.2.1
      [(customerKeyOf "C1", .customer ⟨"C1", 7⟩)] "C2"
      ((customerKeyOf "C2", .customer ⟨"C2", 0⟩) ::
        [(customerKeyOf "C1", .customer ⟨"C1", 7⟩)]) (customerKeyOf "C2") rfl
      (customerKeyOf "C1") 7 rfl
  · exact claim6_amended_balance_monotonicity.2.2.2.1
      [(customerKeyOf "C1", .customer ⟨"C1", 7⟩),
       (shopKeyOf "S1", .shop ⟨"S1", 2, 10, 100, 1⟩)] "S1" "C1"
      ((sstKeyOf "S1" "C1", .sst ⟨"S1", "C1", 0⟩) ::
        [(customerKeyOf "C1", .customer ⟨"C1", 7⟩),
         (shopKeyOf "S1", .shop ⟨"S1", 2, 10, 100, 1⟩)]) (sstKeyOf "S1" "C1") rfl
      (customerKeyOf "C1") 7 rfl
  · exact claim6_amended_balance_monotonicity.2.2.2.2.1
      [(customerKeyOf "C1", .customer ⟨"C1", 7⟩)] "S1" "percent" "10"
      ((couponTypeKeyOf "S1" "percent" "10",
        .couponType ⟨"S1", "percent", "10", true⟩) ::
        [(customerKeyOf "C1", .customer ⟨"C1", 7⟩)])
      (by
        intro p hp
        rw [List.mem_singleton] at hp
        subst hp
        exact rfl)
      rfl (customerKeyOf "C1") 7 rfl
  · exact claim6_amended_balance_monotonicity.2.2.2.2.2.1
      [("T1", .couponType ⟨"S1", "percent", "10", true⟩),
       (customerKeyOf "C1", .customer ⟨"C1", 7⟩)]
      "C" "T1" "owner1" "2024-01-01" "series1" 1
      (couponBatch "C" "T1" "owner1" "2024-01-01" "series1" 1 ++
        [("T1", .couponType ⟨"S1", "percent", "10", true⟩),
         (customerKeyOf "C1", .customer ⟨"C1", 7⟩)])
      (by
        intro p hp
        rcases List.mem_cons.mp hp with hp1 | hp2
        · subst hp1
          exact trivial
        · rw [List.mem_singleton] at hp2
          subst hp2
          exact rfl)
      (by rfl) (customerKeyOf "C1") 7 rfl
  · exact claim6_amended_balance_monotonicity.2.2.2.2.2.2
      [(sstKeyOf "S1" "C1", .sst ⟨"S1", "C1", 2⟩)] "S1" "C1" 3
      ((sstKeyOf "S1" "C1", .sst ⟨"S1", "C1", 2 + 3⟩) ::
        [(sstKeyOf "S1" "C1", .sst ⟨"S1", "C1", 2⟩)])
      (by norm_num) rfl (sstKeyOf "S1" "C1") 2 rfl

end CryptoLoyality
